import Mathlib

/-!
Verification development for the AIStudio tool-tester orchestration core
(`src/tools/tool_tester/engine.py`, class `ToolTesterEngine`).

The engine is shallowly embedded as pure Lean functions over an explicit
environment `Env` that answers the filesystem queries (`Path.exists`) and
supplies the outcome of the single child-process invocation
(`subprocess.run`).  Python dictionary accesses that can raise `KeyError`
are modelled with `Option` fields and an `Except String` result: the
`.error` constructor of `Except` corresponds to an uncaught Python
exception escaping the function.  Every `update_status` call is recorded,
in order, in a trace of `StatusUpdate` values — the sequence of writes to
the status file.  Logging calls have no observable effect on status,
results or exit code and are not modelled.

Note on `int(((i + 1) / total_tools) * 100)` (engine.py line 188): Python
evaluates this expression in IEEE-754 binary64 arithmetic and truncates
toward zero, and the double roundings are observable: at i + 1 = 29,
total = 100 the program writes 28 where exact floor division would give
29.  The model therefore computes the binary64 value exactly over ℕ/ℤ:
`fl` rounds a positive rational to the nearest binary64 value
(round-half-even on a 53-bit significand, exponent clamped at -1022 for
subnormals; the magnitudes arising here, at most 100, cannot overflow),
and `pyProgress` chains the correctly-rounded division, the
correctly-rounded multiplication by 100, and the final truncation.  The
rational-valued `roundDouble` states the same rounding over ℚ;
`fl_val` and `pyProgress_eq` prove the two agree, and monotonicity of
the emitted progress values is obtained through that bridge.
-/

/-- The `status` field of a TestResult: `pass | fail | skip | unknown`
(engine.py line 97 initialises it to `"unknown"`). -/
inductive Status where
  | pass
  | fail
  | skip
  | unknown
deriving DecidableEq, Repr

/-- The `details` dictionary of a TestResult.  In the source it is a dict
that is either empty or carries exactly the keys `exit_code`, `stdout`,
`stderr` (engine.py lines 145-147); `none` models an absent key. -/
structure Details where
  exit_code : Option Int := none
  stdout : Option String := none
  stderr : Option String := none
deriving DecidableEq, Repr

/-- One TestResult record (engine.py lines 94-100): the five keys
`tool_id`, `tool_name`, `status`, `message`, `details`. -/
structure TestResult where
  tool_id : String
  tool_name : String
  status : Status
  message : String
  details : Details
deriving DecidableEq, Repr

/-- One write to the status file by `update_status` (engine.py lines
55-66).  The timestamp is wall-clock noise and is not modelled. -/
structure StatusUpdate where
  status : String
  progress : Nat
  message : String
deriving DecidableEq, Repr

/-- One manifest entry (a tool dict from `studio_config.json`).  Fields
are `Option` because the source accesses them with `tool_info['id']`
etc., which raises `KeyError` when the key is absent. -/
structure ToolInfo where
  id : Option String := none
  display_name : Option String := none
  path : Option String := none
  enabled : Option Bool := none
deriving DecidableEq, Repr

/-- Outcome of the one `subprocess.run` call (engine.py lines 137-143):
normal completion with exit code and captured output, expiry of the
timeout (`subprocess.TimeoutExpired`), or any other exception while
spawning/communicating. -/
inductive ProcOutcome where
  | completed (returncode : Int) (stdout stderr : String)
  | timeout
  | exn (msg : String)
deriving DecidableEq, Repr

/-- The environment a run executes in: the parsed `tools` list of
`studio_config.json` (engine.py lines 68-76; an absent manifest file
yields `[]`), the filesystem's answer to `Path.exists`, and the child
process outcome for a given working directory and timeout. -/
structure Env where
  manifest : List ToolInfo
  pathExists : String → Bool
  runProcess : String → Nat → ProcOutcome

/-- `Path` division `p / q` (path join). -/
def pjoin (a b : String) : String := a ++ "/" ++ b

/-- The branch logic of `test_tool` (engine.py lines 102-170): the four
short-circuiting filesystem checks followed by child-process
classification.  Returns the `status`, `message` and `details` the
function stores into the result dict. -/
def classify (env : Env) (tool_path : String) : Status × String × Details :=
  -- Check if tool directory exists (lines 102-107)
  if ¬ env.pathExists tool_path then
    (.fail, "Tool directory not found: " ++ tool_path, {})
  -- Check for engine.py (lines 109-115)
  else if ¬ env.pathExists (pjoin tool_path "engine.py") then
    (.skip, "No engine.py found (GUI-only tool)", {})
  -- Check for config.json (lines 117-123)
  else if ¬ env.pathExists (pjoin tool_path "config.json") then
    (.fail, "No config.json found", {})
  -- Check for virtual environment (lines 125-131)
  else if ¬ env.pathExists (pjoin (pjoin (pjoin tool_path ".venv") "Scripts") "python.exe") then
    (.fail, "Virtual environment not found", {})
  -- Run engine.py --test (lines 134-168), timeout=30
  else
    match env.runProcess tool_path 30 with
    | .completed rc out err =>
      let d : Details := { exit_code := some rc, stdout := some out, stderr := some err }
      if rc = 0 then
        (.pass, "Test passed successfully", d)
      else
        (.fail, "Test failed with exit code " ++ toString rc, d)
    | .timeout =>
      (.fail, "Test timed out (>30s)", {})
    | .exn m =>
      (.fail, "Exception: " ++ m, {})

/-- The TestResult `test_tool` returns for extracted `tool_id`,
`display_name` and `path` values: the record of lines 94-100 with
`status`/`message`/`details` as mutated by the branch taken. -/
def testToolResult (env : Env) (tool_id tool_name tool_path : String) : TestResult :=
  let c := classify env tool_path
  { tool_id := tool_id, tool_name := tool_name,
    status := c.1, message := c.2.1, details := c.2.2 }

/-- `ToolTesterEngine.test_tool` (engine.py lines 78-170).  The dict
accesses `tool_info['id']`, `tool_info['path']` (lines 88-89) and
`tool_info['display_name']` (line 96) happen outside the try block and
raise `KeyError` on a missing key (`.error`).  On the normal path the
function emits exactly one status update (line 92) and returns the
classified result. -/
def testTool (env : Env) (tool_info : ToolInfo) : Except String (TestResult × List StatusUpdate) := do
  let tool_id ← match tool_info.id with
    | some s => Except.ok s
    | none => Except.error "KeyError: id"
  let tool_path ← match tool_info.path with
    | some s => Except.ok s
    | none => Except.error "KeyError: path"
  let upd : StatusUpdate := { status := "running", progress := 0,
                              message := "Testing " ++ tool_id ++ "..." }
  let tool_name ← match tool_info.display_name with
    | some s => Except.ok s
    | none => Except.error "KeyError: display_name"
  Except.ok (testToolResult env tool_id tool_name tool_path, [upd])

/-- A manifest entry on which `test_tool` does not raise: all three
accessed keys are present. -/
def WF (t : ToolInfo) : Prop :=
  t.id.isSome ∧ t.display_name.isSome ∧ t.path.isSome

instance (t : ToolInfo) : Decidable (WF t) := by
  unfold WF
  infer_instance

/-- `next((t for t in tools if t['id'] == tool_id), None)` (engine.py
line 201): lazily scans the manifest; reaching an entry without an `id`
key raises `KeyError`. -/
def findTool : List ToolInfo → String → Except String (Option ToolInfo)
  | [], _ => Except.ok none
  | t :: ts, tool_id =>
    match t.id with
    | none => Except.error "KeyError: id"
    | some i => if i = tool_id then Except.ok (some t) else findTool ts tool_id

/-- Floor of log2 with an explicit fuel argument, so that it is
structurally recursive and reduces inside the kernel. -/
def log2fuel : Nat → Nat → Nat
  | 0, _ => 0
  | fuel + 1, n => if 2 ≤ n then log2fuel fuel (n / 2) + 1 else 0

/-- Floor of log2 on positive naturals: `2 ^ natLog2 n ≤ n < 2 ^ (natLog2 n + 1)`
(see `natLog2_spec`). -/
def natLog2 (n : Nat) : Nat := log2fuel n n

/-- Floor of log2 of the positive rational a/b (see `dyadicLog2_eq_log`). -/
def dyadicLog2 (a b : Nat) : Int :=
  if b * 2 ^ natLog2 a ≤ a * 2 ^ natLog2 b then (natLog2 a : Int) - natLog2 b
  else (natLog2 a : Int) - natLog2 b - 1

/-- Round-to-nearest of a/b as an integer, ties to even — the IEEE-754
default rounding of a significand (see `rheNat_cast`). -/
def rheNat (a b : Nat) : Nat :=
  a / b + (if b < 2 * (a % b) ∨ (2 * (a % b) = b ∧ (a / b) % 2 = 1) then 1 else 0)

/-- Rounds the rational a/b to the nearest IEEE-754 binary64 value,
returned as significand and exponent (the value is `m * 2 ^ s`):
round-half-even at 53 significant bits, exponent clamped at -1022 below
which precision tapers off (subnormals).  This is the exact result of a
Python float division a/b for the magnitudes arising here (no
overflow).  See `fl_val`. -/
def fl (a b : Nat) : Nat × Int :=
  let s : Int := max (dyadicLog2 a b) (-1022) - 52
  if s ≤ 0 then (rheNat (a * 2 ^ (-s).toNat) b, s)
  else (rheNat a (b * 2 ^ s.toNat), s)

/-- Truncation toward zero of the nonnegative value `m * 2 ^ s` — the
`int(...)` applied to the float (see `dyadicToNat_eq_floor`). -/
def dyadicToNat (m : Nat) (s : Int) : Nat :=
  if s ≤ 0 then m / 2 ^ (-s).toNat else m * 2 ^ s.toNat

/-- engine.py line 188, `int(((i + 1) / total_tools) * 100)`, computed
exactly as Python does: binary64 division, binary64 multiplication by
100, truncation toward zero.  (`total = 0` never occurs: the loop runs
only over a non-empty manifest.)  See `pyProgress_eq` for the ℚ-level
characterisation. -/
def pyProgress (c N : Nat) : Nat :=
  if N = 0 then 0
  else
    let p1 := fl c N
    let a2 := p1.1 * 100 * (if 0 ≤ p1.2 then 2 ^ p1.2.toNat else 1)
    let b2 := if 0 ≤ p1.2 then 1 else 2 ^ (-p1.2).toNat
    let p2 := fl a2 b2
    dyadicToNat p2.1 p2.2

/-- Round-to-nearest-integer on ℚ, ties to even: the proof-side
counterpart of `rheNat`. -/
def roundHalfEven (x : ℚ) : ℤ :=
  let f := ⌊x⌋
  let frac : ℚ := x - f
  if frac < 1/2 then f
  else if 1/2 < frac then f + 1
  else if f % 2 = 0 then f else f + 1

/-- Rounding of a nonnegative rational to the nearest binary64 value,
written over ℚ: the proof-side counterpart of `fl`, used to reason
about monotonicity of the float pipeline. -/
def roundDouble (x : ℚ) : ℚ :=
  if x ≤ 0 then 0
  else
    let s : ℤ := max (Int.log 2 x) (-1022) - 52
    roundHalfEven (x / 2 ^ s) * 2 ^ s

lemma floor_le_roundHalfEven (u : ℚ) : ⌊u⌋ ≤ roundHalfEven u := by
  unfold roundHalfEven
  dsimp only
  split_ifs <;> omega

lemma roundHalfEven_le_floor_add_one (u : ℚ) : roundHalfEven u ≤ ⌊u⌋ + 1 := by
  unfold roundHalfEven
  dsimp only
  split_ifs <;> omega

lemma roundHalfEven_mono {u v : ℚ} (h : u ≤ v) : roundHalfEven u ≤ roundHalfEven v := by
  rcases lt_or_eq_of_le (Int.floor_le_floor h) with hf | hf
  · have h1 := roundHalfEven_le_floor_add_one u
    have h2 := floor_le_roundHalfEven v
    omega
  · have hfrac : u - (⌊u⌋ : ℚ) ≤ v - (⌊v⌋ : ℚ) := by
      rw [hf]
      linarith
    unfold roundHalfEven
    dsimp only
    rw [hf] at hfrac ⊢
    split_ifs <;> first | omega | (exfalso; linarith)

lemma roundHalfEven_intCast (z : ℤ) : roundHalfEven (z : ℚ) = z := by
  unfold roundHalfEven
  dsimp only
  rw [Int.floor_intCast]
  simp

lemma roundDouble_of_nonpos {x : ℚ} (h : x ≤ 0) : roundDouble x = 0 := by
  unfold roundDouble
  rw [if_pos h]

lemma roundDouble_pos_eq {x : ℚ} (h : 0 < x) :
    roundDouble x = roundHalfEven (x / 2 ^ (max (Int.log 2 x) (-1022) - 52))
      * 2 ^ (max (Int.log 2 x) (-1022) - 52) := by
  unfold roundDouble
  rw [if_neg (not_le.mpr h)]

lemma cast_two_pow (n : ℕ) : (((2:ℤ) ^ n : ℤ) : ℚ) = (2:ℚ) ^ (n : ℤ) := by
  rw [zpow_natCast]
  push_cast
  ring

lemma roundDouble_nonneg (x : ℚ) : 0 ≤ roundDouble x := by
  rcases le_or_lt x 0 with hx | hx
  · rw [roundDouble_of_nonpos hx]
  · rw [roundDouble_pos_eq hx]
    have h2 : (0:ℚ) < 2 ^ (max (Int.log 2 x) (-1022) - 52) := zpow_pos (by norm_num) _
    have h4 : (0:ℤ) ≤ ⌊x / 2 ^ (max (Int.log 2 x) (-1022) - 52)⌋ :=
      Int.floor_nonneg.mpr (le_of_lt (div_pos hx h2))
    have h5 := floor_le_roundHalfEven (x / 2 ^ (max (Int.log 2 x) (-1022) - 52))
    exact mul_nonneg (by exact_mod_cast le_trans h4 h5) (le_of_lt h2)

lemma roundDouble_le_binade {x : ℚ} (hx : 0 < x) :
    roundDouble x ≤ 2 ^ (max (Int.log 2 x) (-1022) + 1) := by
  set e : ℤ := max (Int.log 2 x) (-1022) with he
  have hxlt : x < (2:ℚ) ^ (e + 1) := by
    have h1 := Int.lt_zpow_succ_log_self (b := 2) (by norm_num) x
    have hcast : ((2:ℕ):ℚ) = (2:ℚ) := by norm_num
    rw [hcast] at h1
    calc x < (2:ℚ) ^ (Int.log 2 x + 1) := h1
      _ ≤ (2:ℚ) ^ (e + 1) := by
          apply zpow_le_zpow_right₀ (by norm_num)
          have := le_max_left (Int.log 2 x) (-1022)
          omega
  have hpos : (0:ℚ) < (2:ℚ) ^ (e - 52) := zpow_pos (by norm_num) _
  have hu : x / 2 ^ (e - 52) < (2:ℚ) ^ ((53:ℕ):ℤ) := by
    rw [div_lt_iff hpos, ← zpow_add₀ (by norm_num : (2:ℚ) ≠ 0)]
    have h53 : ((53:ℕ):ℤ) + (e - 52) = e + 1 := by omega
    rw [h53]
    exact hxlt
  have hcast53 : (((2:ℤ) ^ (53:ℕ) : ℤ) : ℚ) = (2:ℚ) ^ ((53:ℕ) : ℤ) := cast_two_pow 53
  have hfl : ⌊x / 2 ^ (e - 52)⌋ < (2:ℤ) ^ (53:ℕ) := by
    apply Int.floor_lt.mpr
    rw [hcast53]
    exact hu
  have hrhe : roundHalfEven (x / 2 ^ (e - 52)) ≤ (2:ℤ) ^ (53:ℕ) := by
    have := roundHalfEven_le_floor_add_one (x / 2 ^ (e - 52))
    omega
  rw [roundDouble_pos_eq hx, ← he]
  calc (roundHalfEven (x / 2 ^ (e - 52)) : ℚ) * 2 ^ (e - 52)
      ≤ ((2:ℤ) ^ (53:ℕ) : ℚ) * 2 ^ (e - 52) := by
        apply mul_le_mul_of_nonneg_right _ (le_of_lt hpos)
        exact_mod_cast hrhe
    _ = 2 ^ (e + 1) := by
        push_cast
        rw [← zpow_natCast (2:ℚ) 53, ← zpow_add₀ (by norm_num : (2:ℚ) ≠ 0)]
        congr 1
        omega

lemma zpow_le_roundDouble {x : ℚ} (hx : 0 < x) (hge : -1022 ≤ Int.log 2 x) :
    (2:ℚ) ^ (Int.log 2 x) ≤ roundDouble x := by
  set e : ℤ := max (Int.log 2 x) (-1022) with he
  have hee : e = Int.log 2 x := by
    have := le_max_left (Int.log 2 x) (-1022)
    have := max_le (le_refl (Int.log 2 x)) hge
    omega
  have hyge : (2:ℚ) ^ (Int.log 2 x) ≤ x := by
    have h1 := Int.zpow_log_le_self (b := 2) (by norm_num) hx
    have hcast : ((2:ℕ):ℚ) = (2:ℚ) := by norm_num
    rw [hcast] at h1
    exact h1
  have hpos : (0:ℚ) < (2:ℚ) ^ (e - 52) := zpow_pos (by norm_num) _
  have hu : (2:ℚ) ^ ((52:ℕ):ℤ) ≤ x / 2 ^ (e - 52) := by
    rw [le_div_iff hpos, ← zpow_add₀ (by norm_num : (2:ℚ) ≠ 0)]
    have h52 : ((52:ℕ):ℤ) + (e - 52) = e := by omega
    rw [h52, hee]
    exact hyge
  have hcast52 : (((2:ℤ) ^ (52:ℕ) : ℤ) : ℚ) = (2:ℚ) ^ ((52:ℕ) : ℤ) := cast_two_pow 52
  have hfl : (2:ℤ) ^ (52:ℕ) ≤ ⌊x / 2 ^ (e - 52)⌋ := by
    apply Int.le_floor.mpr
    rw [hcast52]
    exact hu
  have hrhe := floor_le_roundHalfEven (x / 2 ^ (e - 52))
  rw [roundDouble_pos_eq hx, ← he]
  calc (2:ℚ) ^ (Int.log 2 x) = ((2:ℤ) ^ (52:ℕ) : ℚ) * 2 ^ (e - 52) := by
        push_cast
        rw [← zpow_natCast (2:ℚ) 52, ← zpow_add₀ (by norm_num : (2:ℚ) ≠ 0)]
        congr 1
        omega
    _ ≤ (roundHalfEven (x / 2 ^ (e - 52)) : ℚ) * 2 ^ (e - 52) := by
        apply mul_le_mul_of_nonneg_right _ (le_of_lt hpos)
        exact_mod_cast le_trans hfl hrhe

lemma roundDouble_mono {x y : ℚ} (h : x ≤ y) : roundDouble x ≤ roundDouble y := by
  rcases le_or_lt x 0 with hx | hx
  · rw [roundDouble_of_nonpos hx]
    exact roundDouble_nonneg y
  · have hy : 0 < y := lt_of_lt_of_le hx h
    have hlog : Int.log 2 x ≤ Int.log 2 y := Int.log_mono_right hx h
    rcases eq_or_lt_of_le (max_le_max hlog (le_refl (-1022))) with heq | hlt
    · rw [roundDouble_pos_eq hx, roundDouble_pos_eq hy, ← heq]
      have hpos : (0:ℚ) < (2:ℚ) ^ (max (Int.log 2 x) (-1022) - 52) := zpow_pos (by norm_num) _
      have hdiv : x / 2 ^ (max (Int.log 2 x) (-1022) - 52)
          ≤ y / 2 ^ (max (Int.log 2 x) (-1022) - 52) := (div_le_div_right hpos).mpr h
      exact mul_le_mul_of_nonneg_right
        (by exact_mod_cast roundHalfEven_mono hdiv) (le_of_lt hpos)
    · have hge : -1022 ≤ Int.log 2 y := by
        by_contra hc
        push_neg at hc
        rw [max_eq_right (le_of_lt hc)] at hlt
        have := le_max_right (Int.log 2 x) (-1022)
        omega
      have h1 := roundDouble_le_binade hx
      have h2 := zpow_le_roundDouble hy hge
      have hey : max (Int.log 2 y) (-1022) = Int.log 2 y := max_eq_left hge
      calc roundDouble x ≤ 2 ^ (max (Int.log 2 x) (-1022) + 1) := h1
        _ ≤ (2:ℚ) ^ (Int.log 2 y) := by
            apply zpow_le_zpow_right₀ (by norm_num)
            rw [hey] at hlt
            omega
        _ ≤ roundDouble y := h2

lemma roundDouble_eq_self {x : ℚ} (hx : 0 < x) (z : ℤ)
    (hz : x = z * 2 ^ (max (Int.log 2 x) (-1022) - 52)) : roundDouble x = x := by
  rw [roundDouble_pos_eq hx]
  set S : ℤ := max (Int.log 2 x) (-1022) - 52 with hS
  have hpos : (0:ℚ) < (2:ℚ) ^ S := zpow_pos (by norm_num) _
  have hdiv : x / 2 ^ S = (z : ℚ) := by
    rw [hz, mul_div_assoc, div_self (ne_of_gt hpos), mul_one]
  rw [hdiv, roundHalfEven_intCast, ← hz]

lemma roundDouble_one : roundDouble (1:ℚ) = 1 := by
  apply roundDouble_eq_self one_pos ((2:ℤ) ^ (52:ℕ))
  rw [Int.log_one_right]
  have hm : max (0:ℤ) (-1022) = 0 := by decide
  rw [hm, cast_two_pow, ← zpow_add₀ (by norm_num : (2:ℚ) ≠ 0)]
  norm_num

lemma roundDouble_hundred : roundDouble (100:ℚ) = 100 := by
  have hlog : Int.log 2 (100:ℚ) = 6 := by
    have h1 : ((100:ℕ):ℚ) = (100:ℚ) := by norm_num
    rw [← h1, Int.log_natCast]
    have : Nat.log 2 100 = 6 := Nat.log_eq_of_pow_le_of_lt_pow (by norm_num) (by norm_num)
    exact_mod_cast this
  apply roundDouble_eq_self (by norm_num) (100 * (2:ℤ) ^ (46:ℕ))
  rw [hlog]
  have hm : max (6:ℤ) (-1022) = 6 := by decide
  rw [hm, Int.cast_mul, cast_two_pow, mul_assoc, ← zpow_add₀ (by norm_num : (2:ℚ) ≠ 0)]
  norm_num

lemma log2fuel_spec : ∀ fuel n, 1 ≤ n → n ≤ fuel →
    2 ^ log2fuel fuel n ≤ n ∧ n < 2 ^ (log2fuel fuel n + 1) := by
  intro fuel
  induction fuel with
  | zero =>
    intro n h1 h2
    omega
  | succ fuel ih =>
    intro n h1 h2
    rw [log2fuel]
    by_cases h : 2 ≤ n
    · rw [if_pos h]
      have hrec := ih (n / 2) (by omega) (by omega)
      have hp1 : 2 ^ (log2fuel fuel (n / 2) + 1) = 2 ^ log2fuel fuel (n / 2) * 2 :=
        pow_succ 2 _
      have hp2 : 2 ^ (log2fuel fuel (n / 2) + 1 + 1)
          = 2 ^ (log2fuel fuel (n / 2) + 1) * 2 := pow_succ 2 _
      omega
    · rw [if_neg h]
      constructor
      · simpa using h1
      · have h3 : n < 2 := by omega
        simpa using h3

lemma natLog2_spec (n : Nat) (h : 1 ≤ n) :
    2 ^ natLog2 n ≤ n ∧ n < 2 ^ (natLog2 n + 1) :=
  log2fuel_spec n n h le_rfl

lemma dyadicLog2_eq_log (a b : Nat) (ha : 1 ≤ a) (hb : 1 ≤ b) :
    dyadicLog2 a b = Int.log 2 ((a : ℚ) / b) := by
  have ha0 : (0:ℚ) < a := by exact_mod_cast ha
  have hb0 : (0:ℚ) < b := by exact_mod_cast hb
  have hx : (0:ℚ) < (a:ℚ) / b := div_pos ha0 hb0
  obtain ⟨hA1, hA2⟩ := natLog2_spec a ha
  obtain ⟨hB1, hB2⟩ := natLog2_spec b hb
  have hA1q : (2:ℚ) ^ (natLog2 a : ℤ) ≤ a := by
    rw [zpow_natCast]
    exact_mod_cast hA1
  have hA2q : (a:ℚ) < 2 ^ ((natLog2 a : ℤ) + 1) := by
    rw [show (natLog2 a : ℤ) + 1 = ((natLog2 a + 1 : ℕ) : ℤ) by push_cast; ring, zpow_natCast]
    exact_mod_cast hA2
  have hB1q : (2:ℚ) ^ (natLog2 b : ℤ) ≤ b := by
    rw [zpow_natCast]
    exact_mod_cast hB1
  have hB2q : (b:ℚ) < 2 ^ ((natLog2 b : ℤ) + 1) := by
    rw [show (natLog2 b : ℤ) + 1 = ((natLog2 b + 1 : ℕ) : ℤ) by push_cast; ring, zpow_natCast]
    exact_mod_cast hB2
  have hzpos : ∀ t : ℤ, (0:ℚ) < 2 ^ t := fun t => zpow_pos (by norm_num) t
  have key : ∀ e : ℤ, (2:ℚ) ^ e ≤ (a:ℚ) / b → (a:ℚ) / b < 2 ^ (e + 1) →
      e = Int.log 2 ((a:ℚ) / b) := by
    intro e h1 h2
    have hc : ((2:ℕ):ℚ) = (2:ℚ) := by norm_num
    have l1 : e ≤ Int.log 2 ((a:ℚ)/b) :=
      (Int.zpow_le_iff_le_log (by norm_num) hx).mp (by rw [hc]; exact h1)
    have l2 : Int.log 2 ((a:ℚ)/b) < e + 1 :=
      (Int.lt_zpow_iff_log_lt (by norm_num) hx).mp (by rw [hc]; exact h2)
    omega
  unfold dyadicLog2
  split_ifs with hcmp
  · apply key
    · rw [le_div_iff hb0]
      have hcmpq : ((b * 2 ^ natLog2 a : ℕ) : ℚ) ≤ ((a * 2 ^ natLog2 b : ℕ) : ℚ) := by
        exact_mod_cast hcmp
      push_cast at hcmpq
      rw [zpow_sub₀ (by norm_num : (2:ℚ) ≠ 0), div_mul_eq_mul_div, div_le_iff (hzpos _),
        zpow_natCast, zpow_natCast, mul_comm ((2:ℚ) ^ natLog2 a) (b:ℚ)]
      exact hcmpq
    · rw [div_lt_iff hb0]
      calc (a:ℚ) < 2 ^ ((natLog2 a : ℤ) + 1) := hA2q
        _ = 2 ^ ((natLog2 a : ℤ) - natLog2 b + 1) * 2 ^ (natLog2 b : ℤ) := by
            rw [← zpow_add₀ (by norm_num : (2:ℚ) ≠ 0)]
            congr 1
            ring
        _ ≤ 2 ^ ((natLog2 a : ℤ) - natLog2 b + 1) * b :=
            mul_le_mul_of_nonneg_left hB1q (le_of_lt (hzpos _))
  · apply key
    · rw [le_div_iff hb0]
      calc (2:ℚ) ^ ((natLog2 a : ℤ) - natLog2 b - 1) * b
          ≤ 2 ^ ((natLog2 a : ℤ) - natLog2 b - 1) * 2 ^ ((natLog2 b : ℤ) + 1) :=
            mul_le_mul_of_nonneg_left (le_of_lt hB2q) (le_of_lt (hzpos _))
        _ = 2 ^ (natLog2 a : ℤ) := by
            rw [← zpow_add₀ (by norm_num : (2:ℚ) ≠ 0)]
            congr 1
            ring
        _ ≤ a := hA1q
    · rw [div_lt_iff hb0]
      have hcmp2 : a * 2 ^ natLog2 b < b * 2 ^ natLog2 a := by omega
      have hq : ((a * 2 ^ natLog2 b : ℕ) : ℚ) < ((b * 2 ^ natLog2 a : ℕ) : ℚ) := by
        exact_mod_cast hcmp2
      push_cast at hq
      have hexp : (natLog2 a : ℤ) - natLog2 b - 1 + 1 = (natLog2 a : ℤ) - natLog2 b := by
        ring
      rw [hexp]
      rw [show (2:ℚ) ^ ((natLog2 a : ℤ) - natLog2 b) * b
            = (b:ℚ) * 2 ^ (natLog2 a : ℕ) / 2 ^ (natLog2 b : ℕ) from by
          rw [zpow_sub₀ (by norm_num : (2:ℚ) ≠ 0), zpow_natCast, zpow_natCast]
          ring]
      rw [lt_div_iff (by positivity)]
      calc (a:ℚ) * 2 ^ natLog2 b < (b:ℚ) * 2 ^ natLog2 a := hq

lemma rheNat_cast (a b : Nat) (hb : 0 < b) :
    (rheNat a b : ℤ) = roundHalfEven ((a:ℚ)/b) := by
  have hb0 : (0:ℚ) < b := by exact_mod_cast hb
  have hfl : ⌊(a:ℚ)/b⌋ = ((a / b : ℕ) : ℤ) := by
    rw [show ((a:ℚ)) = (((a:ℤ)):ℚ) from by push_cast; ring, Rat.floor_intCast_div_natCast]
    exact (Int.ofNat_div a b).symm
  have hmod : (b:ℚ) * ((a / b : ℕ):ℚ) + ((a % b : ℕ):ℚ) = a := by
    exact_mod_cast Nat.div_add_mod a b
  have hfrac : (a:ℚ)/b - ((a / b : ℕ):ℚ) = ((a % b : ℕ):ℚ)/b := by
    field_simp
    linarith
  have h1 : (((a % b : ℕ):ℚ)/b < 1/2) ↔ (a % b) * 2 < b := by
    rw [div_lt_div_iff hb0 (by norm_num : (0:ℚ) < 2), one_mul]
    exact_mod_cast Iff.rfl
  have h2 : (1/2 < ((a % b : ℕ):ℚ)/b) ↔ b < (a % b) * 2 := by
    rw [div_lt_div_iff (by norm_num : (0:ℚ) < 2) hb0, one_mul]
    exact_mod_cast Iff.rfl
  unfold roundHalfEven rheNat
  dsimp only
  rw [hfl, Int.cast_natCast, hfrac]
  rcases Nat.lt_trichotomy ((a % b) * 2) b with hlt | heq | hgt
  · rw [if_pos (h1.mpr hlt),
      if_neg (by omega : ¬ (b < 2 * (a % b) ∨ (2 * (a % b) = b ∧ (a / b) % 2 = 1)))]
    push_cast
    ring
  · have hn1 : ¬ (((a % b : ℕ):ℚ)/b < 1/2) := by
      rw [h1]
      omega
    have hn2 : ¬ (1/2 < ((a % b : ℕ):ℚ)/b) := by
      rw [h2]
      omega
    rw [if_neg hn1, if_neg hn2]
    by_cases hp : (a / b) % 2 = 0
    · rw [if_pos (by exact_mod_cast hp : ((a/b : ℕ):ℤ) % 2 = 0),
        if_neg (by omega : ¬ (b < 2 * (a % b) ∨ (2 * (a % b) = b ∧ (a / b) % 2 = 1)))]
      push_cast
      ring
    · rw [if_neg (by omega : ¬ ((a/b : ℕ):ℤ) % 2 = 0),
        if_pos (by omega : b < 2 * (a % b) ∨ (2 * (a % b) = b ∧ (a / b) % 2 = 1))]
      push_cast
      ring
  · have hn1 : ¬ (((a % b : ℕ):ℚ)/b < 1/2) := by
      rw [h1]
      omega
    rw [if_neg hn1, if_pos (h2.mpr hgt),
      if_pos (by omega : b < 2 * (a % b) ∨ (2 * (a % b) = b ∧ (a / b) % 2 = 1))]
    push_cast
    ring

lemma dyadicToNat_eq_floor (m : Nat) (s : Int) :
    dyadicToNat m s = (⌊(m:ℚ) * 2 ^ s⌋).toNat := by
  unfold dyadicToNat
  split_ifs with h
  · have hk : (((-s).toNat : ℕ) : ℤ) = -s := Int.toNat_of_nonneg (by omega)
    have hval : (m:ℚ) * 2 ^ s = (m:ℚ) / ((2 ^ (-s).toNat : ℕ):ℚ) := by
      push_cast
      rw [← zpow_natCast (2:ℚ) ((-s).toNat), hk, zpow_neg, div_eq_mul_inv, inv_inv]
    rw [Int.floor_toNat, hval, Nat.floor_div_nat, Nat.floor_natCast]
  · have hval : (m:ℚ) * 2 ^ s = ((m * 2 ^ s.toNat : ℕ):ℚ) := by
      push_cast
      rw [← zpow_natCast (2:ℚ) s.toNat, Int.toNat_of_nonneg (by omega)]
    rw [hval, Int.floor_natCast, Int.toNat_natCast]

lemma fl_val (a b : Nat) (hb : 0 < b) :
    ((fl a b).1 : ℚ) * 2 ^ (fl a b).2 = roundDouble ((a:ℚ)/b) := by
  have hb0 : (0:ℚ) < b := by exact_mod_cast hb
  rcases Nat.eq_zero_or_pos a with ha | ha
  · subst ha
    have hz : ((0:ℕ):ℚ)/(b:ℚ) = 0 := by norm_num
    rw [hz, roundDouble_of_nonpos le_rfl]
    have hr : ∀ c : ℕ, 0 < c → rheNat 0 c = 0 := by
      intro c hc
      unfold rheNat
      rw [Nat.zero_mod, Nat.zero_div, if_neg (by omega)]
    unfold fl
    dsimp only
    split_ifs with hs
    · dsimp only
      rw [Nat.zero_mul, hr b hb]
      norm_num
    · dsimp only
      rw [hr _ (by positivity)]
      norm_num
  · have hx : (0:ℚ) < (a:ℚ)/b := div_pos (by exact_mod_cast ha) hb0
    have hlog := dyadicLog2_eq_log a b ha hb
    rw [roundDouble_pos_eq hx]
    unfold fl
    dsimp only
    rw [hlog]
    set S : ℤ := max (Int.log 2 ((a:ℚ)/b)) (-1022) - 52 with hS
    split_ifs with hs
    · dsimp only
      have hk : (((-S).toNat : ℕ) : ℤ) = -S := Int.toNat_of_nonneg (by omega)
      have harg : (a:ℚ) * 2 ^ ((-S).toNat) / b = (a:ℚ)/b / 2 ^ S := by
        rw [← zpow_natCast (2:ℚ) ((-S).toNat), hk,
          div_eq_mul_inv ((a:ℚ)/(b:ℚ)) ((2:ℚ) ^ S), ← zpow_neg]
        ring
      have hcast := congrArg (fun z : ℤ => (z : ℚ)) (rheNat_cast (a * 2 ^ (-S).toNat) b hb)
      push_cast at hcast
      rw [harg] at hcast
      rw [hcast]
    · dsimp only
      have hbp : (0:ℕ) < b * 2 ^ S.toNat := by positivity
      have harg : (a:ℚ) / ((b:ℚ) * 2 ^ S.toNat) = (a:ℚ)/b / 2 ^ S := by
        rw [div_div, ← zpow_natCast (2:ℚ) S.toNat, Int.toNat_of_nonneg (by omega)]
      have hcast := congrArg (fun z : ℤ => (z : ℚ)) (rheNat_cast a (b * 2 ^ S.toNat) hbp)
      push_cast at hcast
      rw [harg] at hcast
      rw [hcast]

lemma pyProgress_eq (c N : Nat) (hN : 0 < N) :
    pyProgress c N = (⌊roundDouble (roundDouble ((c:ℚ)/N) * 100)⌋).toNat := by
  unfold pyProgress
  rw [if_neg (Nat.pos_iff_ne_zero.mp hN)]
  dsimp only
  have h1 := fl_val c N hN
  by_cases hs : (0:ℤ) ≤ (fl c N).2
  · simp only [if_pos hs]
    have hval : (((fl c N).1 * 100 * 2 ^ (fl c N).2.toNat : ℕ):ℚ) / ((1:ℕ):ℚ)
        = roundDouble ((c:ℚ)/N) * 100 := by
      rw [← h1]
      push_cast
      rw [← zpow_natCast (2:ℚ) (fl c N).2.toNat, Int.toNat_of_nonneg hs]
      ring
    have h2 := fl_val ((fl c N).1 * 100 * 2 ^ (fl c N).2.toNat) 1 one_pos
    rw [hval] at h2
    rw [dyadicToNat_eq_floor, h2]
  · simp only [if_neg hs, Nat.mul_one]
    have hb2 : (0:ℕ) < 2 ^ (-(fl c N).2).toNat := by positivity
    have hval : (((fl c N).1 * 100 : ℕ):ℚ) / ((2 ^ (-(fl c N).2).toNat : ℕ):ℚ)
        = roundDouble ((c:ℚ)/N) * 100 := by
      rw [← h1]
      push_cast
      rw [← zpow_natCast (2:ℚ) ((-(fl c N).2).toNat), Int.toNat_of_nonneg (by omega),
        zpow_neg, div_eq_mul_inv, inv_inv]
      ring
    have h2 := fl_val ((fl c N).1 * 100) (2 ^ (-(fl c N).2).toNat) hb2
    rw [hval] at h2
    rw [dyadicToNat_eq_floor, h2]

lemma pyProgress_mono (c c' N : Nat) (h : c ≤ c') :
    pyProgress c N ≤ pyProgress c' N := by
  rcases Nat.eq_zero_or_pos N with h0 | h0
  · subst h0
    simp [pyProgress]
  · rw [pyProgress_eq c N h0, pyProgress_eq c' N h0]
    have hN0 : (0:ℚ) < N := by exact_mod_cast h0
    have h1 : (c:ℚ)/N ≤ (c':ℚ)/N := by
      apply (div_le_div_right hN0).mpr
      exact_mod_cast h
    have h3 : roundDouble ((c:ℚ)/N) * 100 ≤ roundDouble ((c':ℚ)/N) * 100 :=
      mul_le_mul_of_nonneg_right (roundDouble_mono h1) (by norm_num)
    exact Int.toNat_le_toNat (Int.floor_le_floor (roundDouble_mono h3))

lemma pyProgress_self (N : Nat) (h0 : 0 < N) : pyProgress N N = 100 := by
  rw [pyProgress_eq N N h0,
    div_self (by exact_mod_cast h0.ne' : (N:ℚ) ≠ 0), roundDouble_one, one_mul,
    roundDouble_hundred]
  norm_num
  rfl

lemma pyProgress_le_100 (c N : Nat) (h : c ≤ N) : pyProgress c N ≤ 100 := by
  rcases Nat.eq_zero_or_pos N with h0 | h0
  · subst h0
    simp [pyProgress]
  · calc pyProgress c N ≤ pyProgress N N := pyProgress_mono c N N h
      _ = 100 := pyProgress_self N h0

/-- The binary64 computation of engine.py line 188 is NOT exact floor
division: at 29 of 100 tools the program writes progress 28, while
floor(29 * 100 / 100) = 29. -/
lemma pyProgress_floor_divergence : pyProgress 29 100 = 28 ∧ 29 * 100 / 100 = 29 := by
  decide

/-- `generate_summary` (engine.py lines 212-251), restricted to its
observable effect on the status file: counts `pass` and `fail` results
and writes the final RunStatus with `progress = 100` (lines 240-244).
The skipped count, the log lines and the results-file write carry no
further information about status or exit code. -/
def generateSummary (results : List TestResult) : StatusUpdate :=
  let passed := results.countP (fun r => decide (r.status = Status.pass))
  let failed := results.countP (fun r => decide (r.status = Status.fail))
  if failed > 0 then
    { status := "completed_with_errors", progress := 100,
      message := toString passed ++ " passed, " ++ toString failed ++ " failed" }
  else
    { status := "completed", progress := 100,
      message := "All " ++ toString passed ++ " tests passed" }

/-- The loop body of `test_all_tools` (engine.py lines 187-191), run
over the remaining tools with `i` the number of tools already
completed: each iteration runs `test_tool` (emitting its updates),
appends the result, and emits the run-level progress update
`int(((i + 1) / total_tools) * 100)`, `"Tested {i+1}/{total} tools"`. -/
def runLoop (env : Env) (total : Nat) : Nat → List ToolInfo →
    Except String (List TestResult × List StatusUpdate)
  | _, [] => Except.ok ([], [])
  | i, t :: ts => do
    let (r, tr) ← testTool env t
    let upd : StatusUpdate :=
      { status := "running", progress := pyProgress (i + 1) total,
        message := "Tested " ++ toString (i + 1) ++ "/" ++ toString total ++ " tools" }
    let (rs, trs) ← runLoop env total (i + 1) ts
    Except.ok (r :: rs, (tr ++ [upd]) ++ trs)

/-- `test_all_tools` (engine.py lines 172-194).  Emits the initial
`running`/`Loading tools...` update; on an empty manifest emits the
`error` update and returns WITHOUT generating a summary (line 181);
otherwise walks the manifest and concludes with `generate_summary`.
The Bool records whether `generate_summary` was invoked. -/
def testAllTools (env : Env) : Except String (List TestResult × List StatusUpdate × Bool) :=
  let upd0 : StatusUpdate := { status := "running", progress := 0, message := "Loading tools..." }
  let tools := env.manifest
  if tools.isEmpty then
    Except.ok ([], [upd0, { status := "error", progress := 0, message := "No tools to test" }], false)
  else
    match runLoop env tools.length 0 tools with
    | Except.error e => Except.error e
    | Except.ok (rs, tr) => Except.ok (rs, upd0 :: (tr ++ [generateSummary rs]), true)

/-- `test_single_tool` (engine.py lines 196-210).  Looks the tool up by
id; if absent, emits the `error` update naming the id and returns
without a result and without a summary; otherwise runs `test_tool`
once, appends its result and generates a summary. -/
def testSingleTool (env : Env) (tool_id : String) :
    Except String (List TestResult × List StatusUpdate × Bool) :=
  match findTool env.manifest tool_id with
  | Except.error e => Except.error e
  | Except.ok none =>
    Except.ok ([], [{ status := "error", progress := 0,
                      message := "Tool \x27" ++ tool_id ++ "\x27 not found" }], false)
  | Except.ok (some t) =>
    match testTool env t with
    | Except.error e => Except.error e
    | Except.ok (r, tr) => Except.ok ([r], tr ++ [generateSummary [r]], true)

/-- The parsed command-line arguments relevant to `run` (engine.py
lines 280-282): the `--test` flag and the optional `--tool` id. -/
structure Args where
  test : Bool
  tool : Option String

/-- `ToolTesterEngine.run` (engine.py lines 253-274): test mode returns
0 immediately; otherwise dispatch on `if args.tool:` (an empty string
is falsy in Python, hence the `isEmpty` guard), then return
`0 if failed == 0 else 1` over the accumulated results.  An uncaught
exception is caught here, written to status as `error`, and yields 1;
the results accumulated before the fault are not flushed anywhere
observable, so the model returns `[]` for them. -/
def runEngine (env : Env) (args : Args) : Nat × List TestResult × List StatusUpdate :=
  if args.test then
    (0, [], [{ status := "test_mode", progress := 100, message := "Test mode: Engine operational" }])
  else
    let op := match args.tool with
      | some tool_id =>
        if tool_id.isEmpty then testAllTools env else testSingleTool env tool_id
      | none => testAllTools env
    match op with
    | Except.ok (rs, tr, _) =>
      let failed := rs.countP (fun r => decide (r.status = Status.fail))
      (if failed = 0 then 0 else 1, rs, tr)
    | Except.error e =>
      (1, [], [{ status := "error", progress := 0, message := e }])

/-- The status update `test_tool` emits on entry (engine.py line 92). -/
def testingUpdate (tool_id : String) : StatusUpdate :=
  { status := "running", progress := 0, message := "Testing " ++ tool_id ++ "..." }

/-- The run-level status update `test_all_tools` emits after the tool at
index `i` (engine.py line 191). -/
def testedUpdate (total i : Nat) : StatusUpdate :=
  { status := "running", progress := pyProgress (i + 1) total,
    message := "Tested " ++ toString (i + 1) ++ "/" ++ toString total ++ " tools" }

/-- The full status-update trace of the `test_all_tools` loop over the
remaining tools `ts`, with `i` tools already completed. -/
def loopTrace (total : Nat) : Nat → List ToolInfo → List StatusUpdate
  | _, [] => []
  | i, t :: ts =>
    testingUpdate (t.id.getD "") :: testedUpdate total i :: loopTrace total (i + 1) ts

lemma testTool_wf_eq (env : Env) (t : ToolInfo) (i n p : String)
    (hi : t.id = some i) (hn : t.display_name = some n) (hp : t.path = some p) :
    testTool env t = Except.ok (testToolResult env i n p, [testingUpdate i]) := by
  simp only [testTool, hi, hn, hp]
  rfl

lemma runLoop_wf_eq (env : Env) (total : Nat) (ts : List ToolInfo)
    (h : ∀ t ∈ ts, WF t) (i : Nat) :
    runLoop env total i ts =
      Except.ok (ts.map (fun t =>
          testToolResult env (t.id.getD "") (t.display_name.getD "") (t.path.getD "")),
        loopTrace total i ts) := by
  induction ts generalizing i with
  | nil => rfl
  | cons t ts ih =>
    obtain ⟨h1, h2, h3⟩ := h t (List.mem_cons_self t ts)
    obtain ⟨it, hit⟩ := Option.isSome_iff_exists.mp h1
    obtain ⟨nt, hnt⟩ := Option.isSome_iff_exists.mp h2
    obtain ⟨pt, hpt⟩ := Option.isSome_iff_exists.mp h3
    have hrest : ∀ u ∈ ts, WF u := fun u hu => h u (List.mem_cons_of_mem t hu)
    rw [runLoop, testTool_wf_eq env t it nt pt hit hnt hpt, ih hrest]
    simp only [loopTrace, testedUpdate, List.map_cons, hit, hnt, hpt, Option.getD_some]
    rfl

/-- The status update `test_all_tools` emits before loading the manifest
(engine.py line 175). -/
def loadingUpdate : StatusUpdate :=
  { status := "running", progress := 0, message := "Loading tools..." }

/-- The results a full-suite run accumulates: one classified TestResult
per manifest entry, in manifest order. -/
def allResults (env : Env) : List TestResult :=
  env.manifest.map (fun t =>
    testToolResult env (t.id.getD "") (t.display_name.getD "") (t.path.getD ""))

lemma testAllTools_wf_eq (env : Env) (h : ∀ t ∈ env.manifest, WF t)
    (hne : env.manifest ≠ []) :
    testAllTools env = Except.ok (allResults env,
      loadingUpdate :: (loopTrace env.manifest.length 0 env.manifest
        ++ [generateSummary (allResults env)]), true) := by
  have hempty : env.manifest.isEmpty = false := by
    simp [List.isEmpty_iff, hne]
  unfold testAllTools
  simp only [hempty, Bool.false_eq_true, if_false,
    runLoop_wf_eq env env.manifest.length env.manifest h 0]
  rfl

lemma loopTrace_length (total : Nat) (ts : List ToolInfo) (i : Nat) :
    (loopTrace total i ts).length = 2 * ts.length := by
  induction ts generalizing i with
  | nil => rfl
  | cons t ts ih =>
    rw [loopTrace]
    simp only [List.length_cons, ih, List.length]
    omega

lemma loopTrace_getElem_odd (total : Nat) (ts : List ToolInfo) (i j : Nat)
    (hj : j < ts.length) :
    (loopTrace total i ts)[2 * j + 1]? = some (testedUpdate total (i + j)) := by
  induction ts generalizing i j with
  | nil => simp at hj
  | cons t ts ih =>
    cases j with
    | zero =>
      rw [loopTrace]
      simp
    | succ j =>
      have hj2 : j < ts.length := by simpa using hj
      have he : 2 * (j + 1) + 1 = (2 * j + 1) + 1 + 1 := by omega
      have ha : i + (j + 1) = i + 1 + j := by omega
      rw [ha, loopTrace, he, List.getElem?_cons_succ, List.getElem?_cons_succ,
        ih (i + 1) j hj2]

/-- The run-level progress values of a full-suite walk: for each of the
`k` remaining tools after `i` completed ones, `int(((i+1)/total)*100)`. -/
def runProgs (total : Nat) : Nat → Nat → List Nat
  | _, 0 => []
  | i, k + 1 => pyProgress (i + 1) total :: runProgs total (i + 1) k

/-- Interleaves the per-tool progress-0 updates with the run-level
values: the shape the full progress sequence takes. -/
def withZeros : List Nat → List Nat
  | [] => []
  | x :: xs => 0 :: x :: withZeros xs

lemma loopTrace_progress (total : Nat) (ts : List ToolInfo) (i : Nat) :
    (loopTrace total i ts).map (fun u => u.progress) =
      withZeros (runProgs total i ts.length) := by
  induction ts generalizing i with
  | nil => rfl
  | cons t ts ih =>
    rw [loopTrace]
    simp only [List.length_cons, runProgs, withZeros, List.map_cons, ih]
    rfl

lemma mem_runProgs (total : Nat) (i k x : Nat) (hx : x ∈ runProgs total i k) :
    ∃ j, j < k ∧ x = pyProgress (i + j + 1) total := by
  induction k generalizing i with
  | zero => simp [runProgs] at hx
  | succ k ih =>
    rw [runProgs] at hx
    rcases List.mem_cons.mp hx with h | h
    · refine ⟨0, by omega, ?_⟩
      simpa using h
    · obtain ⟨j, hj, hxe⟩ := ih (i + 1) h
      refine ⟨j + 1, by omega, ?_⟩
      have ha : i + (j + 1) + 1 = i + 1 + j + 1 := by omega
      rw [ha]
      exact hxe

lemma runProgs_sorted (total : Nat) (i k : Nat) :
    List.Sorted (· ≤ ·) (runProgs total i k) := by
  induction k generalizing i with
  | zero => exact List.sorted_nil
  | succ k ih =>
    rw [runProgs]
    refine List.sorted_cons.mpr ⟨fun y hy => ?_, ih (i + 1)⟩
    obtain ⟨j, _, hye⟩ := mem_runProgs total (i + 1) k y hy
    rw [hye]
    exact pyProgress_mono (i + 1) (i + 1 + j + 1) total (by omega)

lemma runProgs_le_100 (total : Nat) (i k : Nat) (hk : i + k ≤ total)
    (x : Nat) (hx : x ∈ runProgs total i k) : x ≤ 100 := by
  obtain ⟨j, hj, hxe⟩ := mem_runProgs total i k x hx
  rw [hxe]
  exact pyProgress_le_100 (i + j + 1) total (by omega)

lemma generateSummary_progress (results : List TestResult) :
    (generateSummary results).progress = 100 := by
  unfold generateSummary
  dsimp only
  split <;> rfl

lemma generateSummary_of_no_fail (results : List TestResult)
    (h : results.countP (fun r => decide (r.status = Status.fail)) = 0) :
    generateSummary results =
      { status := "completed", progress := 100,
        message := "All "
          ++ toString (results.countP (fun r => decide (r.status = Status.pass)))
          ++ " tests passed" } := by
  simp [generateSummary, h]

lemma generateSummary_of_fail (results : List TestResult)
    (h : results.countP (fun r => decide (r.status = Status.fail)) ≠ 0) :
    generateSummary results =
      { status := "completed_with_errors", progress := 100,
        message := toString (results.countP (fun r => decide (r.status = Status.pass)))
          ++ " passed, "
          ++ toString (results.countP (fun r => decide (r.status = Status.fail)))
          ++ " failed" } := by
  simp [generateSummary, Nat.pos_of_ne_zero h]

lemma testToolResult_tool_id (env : Env) (i n p : String) :
    (testToolResult env i n p).tool_id = i := rfl

lemma testToolResult_tool_name (env : Env) (i n p : String) :
    (testToolResult env i n p).tool_name = n := rfl

lemma testToolResult_status (env : Env) (i n p : String) :
    (testToolResult env i n p).status = (classify env p).1 := rfl

/-- A concrete manifest entry with every key present. -/
def mkTool (i n p : String) : ToolInfo :=
  { id := some i, display_name := some n, path := some p, enabled := some true }

/-- Two registered tools, nothing installed on disk: both runs fail the
first validation check. -/
def envTwo : Env :=
  { manifest := [mkTool "alpha" "Alpha" "/tools/alpha", mkTool "beta" "Beta" "/tools/beta"],
    pathExists := fun _ => false,
    runProcess := fun _ _ => ProcOutcome.timeout }

/-- Three registered tools, fully installed, whose self-tests exit 0. -/
def envThree : Env :=
  { manifest := [mkTool "alpha" "Alpha" "/tools/alpha", mkTool "beta" "Beta" "/tools/beta",
                 mkTool "gamma" "Gamma" "/tools/gamma"],
    pathExists := fun _ => true,
    runProcess := fun _ _ => ProcOutcome.completed 0 "ok" "" }

/-- One registered tool `alpha`: probes single-tool mode with an
unknown id. -/
def envOne : Env :=
  { manifest := [mkTool "alpha" "Alpha" "/tools/alpha"],
    pathExists := fun _ => false,
    runProcess := fun _ _ => ProcOutcome.timeout }

/-- An empty manifest (`studio_config.json` absent or without tools). -/
def envEmpty : Env :=
  { manifest := [],
    pathExists := fun _ => false,
    runProcess := fun _ _ => ProcOutcome.timeout }

/-- The results a full-suite run over `envTwo` produces. -/
def resTwo : List TestResult :=
  [{ tool_id := "alpha", tool_name := "Alpha", status := Status.fail,
     message := "Tool directory not found: /tools/alpha", details := {} },
   { tool_id := "beta", tool_name := "Beta", status := Status.fail,
     message := "Tool directory not found: /tools/beta", details := {} }]

/-- The status-update trace a full-suite run over `envTwo` emits. -/
def trTwo : List StatusUpdate :=
  [loadingUpdate,
   testingUpdate "alpha",
   { status := "running", progress := 50, message := "Tested 1/2 tools" },
   testingUpdate "beta",
   { status := "running", progress := 100, message := "Tested 2/2 tools" },
   { status := "completed_with_errors", progress := 100, message := "0 passed, 2 failed" }]

/-- Modelled from the spec: the progress formula the spec asserts for the
full-suite loop, `round(100 * completed / total)` with rounding to the
nearest integer (the source instead truncates,
`int(((i + 1) / total_tools) * 100)`). -/
def specProgressRound (completed total : Nat) : Nat :=
  (completed * 100 * 2 + total) / (total * 2)

/-- C1 (counterexample): single-tool mode over `envOne` with the unknown
id `beta` sets RunStatus to `error` naming the id and produces zero
TestResult entries, but the top-level invocation returns completion code
0 — not 1 as the claim states — because `run` derives the exit code
solely from the number of `fail` results (engine.py line 269) and the
result list is empty. -/
theorem single_tool_unknown_id_exit_zero_cex :
    runEngine envOne { test := false, tool := some "beta" } =
      (0, [], [{ status := "error", progress := 0, message := "Tool \x27beta\x27 not found" }])
    ∧ (0 : Nat) ≠ 1 :=
  ⟨rfl, by decide⟩

/-- C1 (amended): in single-tool mode, if the requested tool id is absent
from the manifest, the orchestrator sets RunStatus to `error` with a
message naming the missing id, produces zero TestResult entries, and the
top-level invocation returns completion code 0 (the exit code is
`0 if failed == 0 else 1` over the empty result list). -/
theorem single_tool_unknown_id (env : Env) (tool_id : String)
    (hid : tool_id.isEmpty = false)
    (hfind : findTool env.manifest tool_id = Except.ok none) :
    runEngine env { test := false, tool := some tool_id } =
      (0, [], [{ status := "error", progress := 0,
                 message := "Tool \x27" ++ tool_id ++ "\x27 not found" }]) := by
  simp [runEngine, testSingleTool, hid, hfind]

/-- C1 (witness): the amended statement at `envOne` and id `delta`. -/
theorem single_tool_unknown_id_witness :
    runEngine envOne { test := false, tool := some "delta" } =
      (0, [], [{ status := "error", progress := 0, message := "Tool \x27delta\x27 not found" }]) :=
  single_tool_unknown_id envOne "delta" rfl rfl

/-- C2 (counterexample): the full-suite run over `envTwo` emits the
progress sequence 0, 0, 50, 0, 100, 100: the per-tool `running` update
(engine.py line 92) resets progress to 0 after the run-level update had
reached 50, so the progress written to RunStatus is not monotonically
non-decreasing over the run's status updates. -/
theorem progress_not_monotone_cex :
    ((testAllTools envTwo).toOption.map
        (fun x => x.2.1.map (fun u => u.progress))) = some [0, 0, 50, 0, 100, 100]
    ∧ ¬ List.Sorted (· ≤ ·) [0, 0, 50, 0, 100, 100] :=
  ⟨rfl, by decide⟩

/-- C2 (amended): over a well-formed non-empty manifest, the progress
sequence of a full-suite run is exactly
`0 :: withZeros (runProgs N 0 N) ++ [100]` (with `runProgs` the
binary64-computed `pyProgress` values the program emits): each tool
contributes a per-tool update carrying progress 0 followed by the
run-level value, so the full sequence is not monotone; the run-level
subsequence `0 :: runProgs N 0 N ++ [100]` is monotonically
non-decreasing, and the final update at run completion carries exactly
100. -/
theorem progress_runlevel_monotone (env : Env)
    (h : ∀ t ∈ env.manifest, WF t) (hne : env.manifest ≠ [])
    (rs : List TestResult) (tr : List StatusUpdate) (b : Bool)
    (hrun : testAllTools env = Except.ok (rs, tr, b)) :
    tr.map (fun u => u.progress)
      = 0 :: (withZeros (runProgs env.manifest.length 0 env.manifest.length) ++ [100])
    ∧ List.Sorted (· ≤ ·)
        (0 :: (runProgs env.manifest.length 0 env.manifest.length ++ [100]))
    ∧ tr.getLast? = some (generateSummary rs)
    ∧ (generateSummary rs).progress = 100 := by
  have heq := (testAllTools_wf_eq env h hne).symm.trans hrun
  simp only [Except.ok.injEq, Prod.mk.injEq] at heq
  obtain ⟨h1, h2, h3⟩ := heq
  subst h1
  subst h2
  subst h3
  refine ⟨?_, ?_, ?_, generateSummary_progress _⟩
  · simp only [List.map_cons, List.map_append, List.map]
    rw [loopTrace_progress, generateSummary_progress]
    rfl
  · refine List.sorted_cons.mpr ⟨?_, ?_⟩
    · intro y hy
      exact Nat.zero_le y
    · refine (List.pairwise_append).mpr ⟨runProgs_sorted _ _ _, List.pairwise_singleton _ _, ?_⟩
      intro x hx y hy
      rw [List.mem_singleton.mp hy]
      exact runProgs_le_100 env.manifest.length 0 env.manifest.length (by omega) x hx
  · rw [show loadingUpdate :: (loopTrace env.manifest.length 0 env.manifest
          ++ [generateSummary (allResults env)])
        = (loadingUpdate :: loopTrace env.manifest.length 0 env.manifest)
          ++ [generateSummary (allResults env)] from rfl,
      List.getLast?_concat]

/-- C2 (witness): the amended statement at `envTwo`. -/
theorem progress_runlevel_monotone_witness :
    trTwo.map (fun u => u.progress)
      = 0 :: (withZeros (runProgs envTwo.manifest.length 0 envTwo.manifest.length) ++ [100])
    ∧ List.Sorted (· ≤ ·)
        (0 :: (runProgs envTwo.manifest.length 0 envTwo.manifest.length ++ [100]))
    ∧ trTwo.getLast? = some (generateSummary resTwo)
    ∧ (generateSummary resTwo).progress = 100 :=
  progress_runlevel_monotone envTwo (by decide) (by decide) resTwo trTwo true rfl

/-- C6 (counterexample): a full-suite run over the empty manifest
`envEmpty` produces zero results and returns at engine.py line 181
WITHOUT invoking `generate_summary` (the Bool component is `false`),
contradicting the claim that run-all invokes summary generation even
when zero results were produced. -/
theorem empty_manifest_skips_summary_cex :
    testAllTools envEmpty = Except.ok ([],
      [loadingUpdate, { status := "error", progress := 0, message := "No tools to test" }],
      false)
    ∧ false ≠ true :=
  ⟨rfl, by decide⟩

/-- C6 (amended): summary generation is invoked exactly when the run
reaches the end of a manifest walk: in run-all mode iff the manifest is
non-empty, and in run-one mode iff the id lookup found a tool — both
the tool-not-found case of run-one AND the empty-manifest case of
run-all skip it. -/
theorem summary_invocation_iff (env : Env) (tool_id : String)
    (rs rs2 : List TestResult) (tr tr2 : List StatusUpdate) (b b2 : Bool)
    (h1 : testAllTools env = Except.ok (rs, tr, b))
    (h2 : testSingleTool env tool_id = Except.ok (rs2, tr2, b2)) :
    (b = true ↔ env.manifest ≠ [])
    ∧ (b2 = true ↔ ∃ t, findTool env.manifest tool_id = Except.ok (some t)) := by
  constructor
  · by_cases hm : env.manifest = []
    · unfold testAllTools at h1
      rw [hm] at h1
      simp only [List.isEmpty_nil, if_true, Except.ok.injEq, Prod.mk.injEq] at h1
      obtain ⟨-, -, hb⟩ := h1
      rw [← hb, hm]
      simp
    · unfold testAllTools at h1
      have hempty : env.manifest.isEmpty = false := by simp [List.isEmpty_iff, hm]
      simp only [hempty, Bool.false_eq_true, if_false] at h1
      cases hr : runLoop env env.manifest.length 0 env.manifest with
      | error e =>
        rw [hr] at h1
        exact absurd h1 (by simp)
      | ok pr =>
        obtain ⟨a, c⟩ := pr
        rw [hr] at h1
        simp only [Except.ok.injEq, Prod.mk.injEq] at h1
        obtain ⟨-, -, hb⟩ := h1
        rw [← hb]
        simp [hm]
  · unfold testSingleTool at h2
    cases hf : findTool env.manifest tool_id with
    | error e =>
      rw [hf] at h2
      exact absurd h2 (by simp)
    | ok o =>
      rw [hf] at h2
      cases o with
      | none =>
        simp only [Except.ok.injEq, Prod.mk.injEq] at h2
        obtain ⟨-, -, hb⟩ := h2
        rw [← hb]
        simp
      | some t =>
        dsimp only at h2
        cases ht : testTool env t with
        | error e =>
          rw [ht] at h2
          exact absurd h2 (by simp)
        | ok pr =>
          obtain ⟨r, rtr⟩ := pr
          rw [ht] at h2
          simp only [Except.ok.injEq, Prod.mk.injEq] at h2
          obtain ⟨-, -, hb⟩ := h2
          rw [← hb]
          simp

/-- C6 (witness): the amended statement at `envTwo` with id `alpha`:
both modes reach summary generation there. -/
theorem summary_invocation_iff_witness :
    (true = true ↔ envTwo.manifest ≠ [])
    ∧ (true = true ↔ ∃ t, findTool envTwo.manifest "alpha" = Except.ok (some t)) :=
  summary_invocation_iff envTwo "alpha" resTwo
    [{ tool_id := "alpha", tool_name := "Alpha", status := Status.fail,
       message := "Tool directory not found: /tools/alpha", details := {} }]
    trTwo
    [testingUpdate "alpha",
     { status := "completed_with_errors", progress := 100, message := "0 passed, 1 failed" }]
    true true rfl rfl

/-- C7: over a well-formed manifest with N entries, the full-suite run
produces exactly N TestResult entries, whose `tool_id` (and `tool_name`)
sequence equals the manifest's `id` (and `display_name`) sequence in
manifest order. -/
theorem results_match_manifest_order (env : Env)
    (h : ∀ t ∈ env.manifest, WF t)
    (rs : List TestResult) (tr : List StatusUpdate) (b : Bool)
    (hrun : testAllTools env = Except.ok (rs, tr, b)) :
    rs.length = env.manifest.length
    ∧ rs.map (fun r => r.tool_id) = env.manifest.map (fun t => t.id.getD "")
    ∧ rs.map (fun r => r.tool_name) = env.manifest.map (fun t => t.display_name.getD "") := by
  by_cases hm : env.manifest = []
  · unfold testAllTools at hrun
    rw [hm] at hrun
    simp only [List.isEmpty_nil, if_true, Except.ok.injEq, Prod.mk.injEq] at hrun
    obtain ⟨hrs, -, -⟩ := hrun
    rw [← hrs, hm]
    simp
  · have heq := (testAllTools_wf_eq env h hm).symm.trans hrun
    simp only [Except.ok.injEq, Prod.mk.injEq] at heq
    obtain ⟨h1, -, -⟩ := heq
    subst h1
    refine ⟨by simp [allResults], ?_, ?_⟩
    · rw [allResults, List.map_map]
      rfl
    · rw [allResults, List.map_map]
      rfl

/-- C7 (witness): a full-suite run over the two-entry manifest of
`envTwo` yields two results in manifest order. -/
theorem results_match_manifest_order_witness :
    resTwo.length = envTwo.manifest.length
    ∧ resTwo.map (fun r => r.tool_id) = envTwo.manifest.map (fun t => t.id.getD "")
    ∧ resTwo.map (fun r => r.tool_name)
        = envTwo.manifest.map (fun t => t.display_name.getD "") :=
  results_match_manifest_order envTwo (by decide) resTwo trTwo true rfl

/-- C8 (counterexample): over the three-tool manifest of `envThree`,
after completing the second tool the run-level update carries
progress 66 = int((2/3)*100) — truncation — while the claimed
round(100*2/3) is 67. -/
theorem progress_rounding_cex :
    ((testAllTools envThree).toOption.map (fun x => x.2.1[4]?))
      = some (some { status := "running", progress := 66, message := "Tested 2/3 tools" })
    ∧ specProgressRound 2 3 = 67
    ∧ (66 : Nat) ≠ 67 :=
  ⟨rfl, rfl, by decide⟩

/-- C8 (amended): during a full-suite run over a well-formed non-empty
manifest of N tools, after completing the (j+1)-th tool the status file
carries the run-level update with progress
`int(((j+1) / N) * 100)` computed in IEEE binary64 and truncated toward
zero (`pyProgress`) — not round-to-nearest (67 vs the emitted 66 at 2
of 3 tools) and not exact floor division either (29 vs the emitted 28
at 29 of 100 tools, `pyProgress_floor_divergence`) — with message
`"Tested {j+1}/{N} tools"`; it sits at trace position 2j+2 (after the
loading update and the j+1 per-tool updates). -/
theorem progress_after_each_tool (env : Env)
    (h : ∀ t ∈ env.manifest, WF t) (hne : env.manifest ≠ [])
    (rs : List TestResult) (tr : List StatusUpdate) (b : Bool)
    (hrun : testAllTools env = Except.ok (rs, tr, b))
    (j : Nat) (hj : j < env.manifest.length) :
    tr[2 * j + 2]? = some
      { status := "running",
        progress := pyProgress (j + 1) env.manifest.length,
        message := "Tested " ++ toString (j + 1) ++ "/"
          ++ toString env.manifest.length ++ " tools" } := by
  have heq := (testAllTools_wf_eq env h hne).symm.trans hrun
  simp only [Except.ok.injEq, Prod.mk.injEq] at heq
  obtain ⟨-, h2, -⟩ := heq
  subst h2
  have hidx : 2 * j + 2 = (2 * j + 1) + 1 := by omega
  rw [hidx, List.getElem?_cons_succ, List.getElem?_append,
    if_pos (by rw [loopTrace_length]; omega),
    loopTrace_getElem_odd env.manifest.length env.manifest 0 j hj]
  simp [testedUpdate]

/-- C8 (witness): the amended statement at `envTwo`, after the first
tool: progress int((1/2)*100) = 50. -/
theorem progress_after_each_tool_witness :
    trTwo[2]? = some
      { status := "running", progress := 50, message := "Tested 1/2 tools" } :=
  progress_after_each_tool envTwo (by decide) (by decide) resTwo trTwo true rfl 0 (by decide)

/-- C3: for every tool (well-formed entry with path `p`), the validation
checks run in the fixed order root, entry point, config, runtime, and
short-circuit at the first failure: a missing installation root yields
`fail` naming the missing path; otherwise a missing `engine.py` yields
`skip` (never `fail` or `pass`); otherwise a missing `config.json`
yields `fail`; otherwise a missing venv interpreter yields `fail`.  Each
conjunct constrains only the checks up to the failing one, so the
outcome is independent of every later check — they are not performed. -/
theorem validation_short_circuit (env : Env) (t : ToolInfo) (i n p : String)
    (hi : t.id = some i) (hn : t.display_name = some n) (hp : t.path = some p) :
    (env.pathExists p = false →
      testTool env t = Except.ok
        (⟨i, n, Status.fail, "Tool directory not found: " ++ p, {}⟩, [testingUpdate i]))
    ∧ (env.pathExists p = true → env.pathExists (pjoin p "engine.py") = false →
      testTool env t = Except.ok
        (⟨i, n, Status.skip, "No engine.py found (GUI-only tool)", {}⟩, [testingUpdate i]))
    ∧ (env.pathExists p = true → env.pathExists (pjoin p "engine.py") = true →
      env.pathExists (pjoin p "config.json") = false →
      testTool env t = Except.ok
        (⟨i, n, Status.fail, "No config.json found", {}⟩, [testingUpdate i]))
    ∧ (env.pathExists p = true → env.pathExists (pjoin p "engine.py") = true →
      env.pathExists (pjoin p "config.json") = true →
      env.pathExists (pjoin (pjoin (pjoin p ".venv") "Scripts") "python.exe") = false →
      testTool env t = Except.ok
        (⟨i, n, Status.fail, "Virtual environment not found", {}⟩, [testingUpdate i])) := by
  rw [testTool_wf_eq env t i n p hi hn hp]
  refine ⟨?_, ?_, ?_, ?_⟩
  · intro h1
    simp [testToolResult, classify, h1]
  · intro h1 h2
    simp [testToolResult, classify, h1, h2]
  · intro h1 h2 h3
    simp [testToolResult, classify, h1, h2, h3]
  · intro h1 h2 h3 h4
    simp [testToolResult, classify, h1, h2, h3, h4]

/-- C3 (witness): over `envTwo` (nothing on disk), tool `alpha` fails
the first check with the message naming its missing root. -/
theorem validation_short_circuit_witness :
    testTool envTwo (mkTool "alpha" "Alpha" "/tools/alpha") =
      Except.ok
        (⟨"alpha", "Alpha", Status.fail, "Tool directory not found: /tools/alpha", {}⟩,
         [testingUpdate "alpha"]) :=
  (validation_short_circuit envTwo (mkTool "alpha" "Alpha" "/tools/alpha")
    "alpha" "Alpha" "/tools/alpha" rfl rfl rfl).1 rfl

/-- C4: when all four validation checks pass, the child-process outcome
is classified as: exit code 0 yields `pass`; any non-zero exit code
yields `fail` with the numeric code in the message and exit code,
stdout, stderr stored in `details`; expiry of the 30-unit timeout yields
`fail` with the timeout message, which differs from every exit-code
message and every spawn-fault message; any other fault yields `fail`
with the fault description in the message. -/
theorem classification_of_child_outcome (env : Env) (t : ToolInfo) (i n p : String)
    (hi : t.id = some i) (hn : t.display_name = some n) (hp : t.path = some p)
    (hroot : env.pathExists p = true)
    (heng : env.pathExists (pjoin p "engine.py") = true)
    (hcfg : env.pathExists (pjoin p "config.json") = true)
    (hvenv : env.pathExists (pjoin (pjoin (pjoin p ".venv") "Scripts") "python.exe") = true) :
    (∀ out err, env.runProcess p 30 = ProcOutcome.completed 0 out err →
      testTool env t = Except.ok
        (⟨i, n, Status.pass, "Test passed successfully", ⟨some 0, some out, some err⟩⟩,
         [testingUpdate i]))
    ∧ (∀ rc out err, rc ≠ 0 → env.runProcess p 30 = ProcOutcome.completed rc out err →
      testTool env t = Except.ok
        (⟨i, n, Status.fail, "Test failed with exit code " ++ toString rc,
          ⟨some rc, some out, some err⟩⟩,
         [testingUpdate i]))
    ∧ (env.runProcess p 30 = ProcOutcome.timeout →
      testTool env t = Except.ok
        (⟨i, n, Status.fail, "Test timed out (>30s)", {}⟩, [testingUpdate i]))
    ∧ (∀ m, env.runProcess p 30 = ProcOutcome.exn m →
      testTool env t = Except.ok
        (⟨i, n, Status.fail, "Exception: " ++ m, {}⟩, [testingUpdate i]))
    ∧ (∀ rc : Int, "Test timed out (>30s)" ≠ "Test failed with exit code " ++ toString rc)
    ∧ (∀ m : String, "Test timed out (>30s)" ≠ "Exception: " ++ m) := by
  rw [testTool_wf_eq env t i n p hi hn hp]
  refine ⟨?_, ?_, ?_, ?_, ?_, ?_⟩
  · intro out err hpr
    simp [testToolResult, classify, hroot, heng, hcfg, hvenv, hpr]
  · intro rc out err hrc hpr
    simp [testToolResult, classify, hroot, heng, hcfg, hvenv, hpr, hrc]
  · intro hpr
    simp [testToolResult, classify, hroot, heng, hcfg, hvenv, hpr]
  · intro m hpr
    simp [testToolResult, classify, hroot, heng, hcfg, hvenv, hpr]
  · intro rc hcontra
    have h2 := congrArg String.length hcontra
    rw [String.length_append] at h2
    have e1 : ("Test timed out (>30s)" : String).length = 21 := rfl
    have e2 : ("Test failed with exit code " : String).length = 27 := rfl
    rw [e1, e2] at h2
    omega
  · intro m hcontra
    have h2 := congrArg (fun s => s.data.head?) hcontra
    simp only [String.data_append] at h2
    have e1 : ("Test timed out (>30s)" : String).data.head? = some 'T' := rfl
    have e2 : (("Exception: " : String).data ++ m.data).head? = some 'E' := rfl
    rw [e1, e2] at h2
    exact absurd (Option.some.inj h2) (by decide)

/-- C4 (witness): over `envThree` (everything installed, self-test exits
0 with stdout "ok"), tool `alpha` is classified `pass` with the captured
output in `details`. -/
theorem classification_of_child_outcome_witness :
    testTool envThree (mkTool "alpha" "Alpha" "/tools/alpha") =
      Except.ok
        (⟨"alpha", "Alpha", Status.pass, "Test passed successfully",
          ⟨some 0, some "ok", some ""⟩⟩,
         [testingUpdate "alpha"]) :=
  (classification_of_child_outcome envThree (mkTool "alpha" "Alpha" "/tools/alpha")
    "alpha" "Alpha" "/tools/alpha" rfl rfl rfl rfl rfl rfl rfl).1 "ok" "" rfl

/-- C9 (counterexample): `test_tool` raises for a tool_info missing its
keys: `tool_info['id']` (engine.py line 88) is evaluated outside the try
block, so on an empty dict the executor propagates a `KeyError` instead
of returning a TestResult. -/
theorem executor_raises_on_missing_keys_cex :
    testTool envOne {} = Except.error "KeyError: id" := rfl

/-- C9 (amended): for every tool_info carrying the three accessed keys
(`id`, `display_name`, `path`) and every filesystem state and
child-process outcome, the Per-Tool Test Executor returns a TestResult
rather than propagating an exception; a tool_info missing one of those
keys instead raises `KeyError` (the accesses precede the try block). -/
theorem executor_total_on_wf (env : Env) (t : ToolInfo) (h : WF t) :
    ∃ r, testTool env t = Except.ok (r, [testingUpdate (t.id.getD "")]) := by
  obtain ⟨h1, h2, h3⟩ := h
  obtain ⟨i, hi⟩ := Option.isSome_iff_exists.mp h1
  obtain ⟨n, hn⟩ := Option.isSome_iff_exists.mp h2
  obtain ⟨p, hp⟩ := Option.isSome_iff_exists.mp h3
  refine ⟨testToolResult env i n p, ?_⟩
  rw [testTool_wf_eq env t i n p hi hn hp, hi]
  rfl

/-- C9 (witness): the amended statement at `envOne` and tool `alpha`. -/
theorem executor_total_on_wf_witness :
    ∃ r, testTool envOne (mkTool "alpha" "Alpha" "/tools/alpha")
      = Except.ok (r, [testingUpdate "alpha"]) :=
  executor_total_on_wf envOne (mkTool "alpha" "Alpha" "/tools/alpha") (by decide)

lemma classify_status_cases (env : Env) (p : String) :
    (classify env p).1 = Status.pass ∨ (classify env p).1 = Status.fail
      ∨ (classify env p).1 = Status.skip := by
  unfold classify
  split
  · simp
  split
  · simp
  split
  · simp
  split
  · simp
  split
  · dsimp only
    split
    · simp
    · simp
  · simp
  · simp

/-- C10: every TestResult the Per-Tool Test Executor returns has status
`pass`, `fail` or `skip`: the `unknown` that initialises the record is
overwritten on every return path and is never observable in a returned
result.  (That every returned record carries exactly the five fields
`tool_id`, `tool_name`, `status`, `message`, `details`, the last a
possibly-empty dictionary, is enforced by the `TestResult` and `Details`
structures of the embedding.) -/
theorem returned_status_never_unknown (env : Env) (t : ToolInfo)
    (r : TestResult) (tr : List StatusUpdate)
    (h : testTool env t = Except.ok (r, tr)) :
    r.status = Status.pass ∨ r.status = Status.fail ∨ r.status = Status.skip := by
  cases hi : t.id with
  | none =>
    have hne : testTool env t = Except.error "KeyError: id" := by
      unfold testTool
      rw [hi]
      rfl
    rw [hne] at h
    exact absurd h (by simp)
  | some i =>
    cases hp : t.path with
    | none =>
      have hne : testTool env t = Except.error "KeyError: path" := by
        unfold testTool
        rw [hi, hp]
        rfl
      rw [hne] at h
      exact absurd h (by simp)
    | some p =>
      cases hn : t.display_name with
      | none =>
        have hne : testTool env t = Except.error "KeyError: display_name" := by
          unfold testTool
          rw [hi, hp, hn]
          rfl
        rw [hne] at h
        exact absurd h (by simp)
      | some n =>
        rw [testTool_wf_eq env t i n p hi hn hp] at h
        simp only [Except.ok.injEq, Prod.mk.injEq] at h
        obtain ⟨hr, -⟩ := h
        rw [← hr, testToolResult_status]
        exact classify_status_cases env p

/-- C10 (witness): the status of the result for `alpha` over `envTwo`. -/
theorem returned_status_never_unknown_witness :
    TestResult.status
        ⟨"alpha", "Alpha", Status.fail, "Tool directory not found: /tools/alpha", {}⟩
        = Status.pass
    ∨ TestResult.status
        ⟨"alpha", "Alpha", Status.fail, "Tool directory not found: /tools/alpha", {}⟩
        = Status.fail
    ∨ TestResult.status
        ⟨"alpha", "Alpha", Status.fail, "Tool directory not found: /tools/alpha", {}⟩
        = Status.skip :=
  returned_status_never_unknown envTwo (mkTool "alpha" "Alpha" "/tools/alpha")
    ⟨"alpha", "Alpha", Status.fail, "Tool directory not found: /tools/alpha", {}⟩
    [testingUpdate "alpha"] rfl

/-- C5: for a full-suite run over a well-formed non-empty manifest
(reaching summary generation), the terminal outcome is determined solely
by the presence of `fail` results: the last status update written is
`generate_summary`'s final RunStatus with `progress = 100`; with zero
`fail` results it is `completed` with the pass-count message and the
invocation returns completion code 0; otherwise it is
`completed_with_errors` with the counts message and the invocation
returns 1. -/
theorem terminal_outcome_by_fail_count (env : Env)
    (h : ∀ t ∈ env.manifest, WF t) (hne : env.manifest ≠ [])
    (code : Nat) (rs : List TestResult) (tr : List StatusUpdate)
    (hrun : runEngine env { test := false, tool := none } = (code, rs, tr)) :
    tr.getLast? = some (generateSummary rs)
    ∧ (generateSummary rs).progress = 100
    ∧ (rs.countP (fun r => decide (r.status = Status.fail)) = 0 →
        generateSummary rs =
          { status := "completed", progress := 100,
            message := "All "
              ++ toString (rs.countP (fun r => decide (r.status = Status.pass)))
              ++ " tests passed" }
        ∧ code = 0)
    ∧ (rs.countP (fun r => decide (r.status = Status.fail)) ≠ 0 →
        generateSummary rs =
          { status := "completed_with_errors", progress := 100,
            message := toString (rs.countP (fun r => decide (r.status = Status.pass)))
              ++ " passed, "
              ++ toString (rs.countP (fun r => decide (r.status = Status.fail)))
              ++ " failed" }
        ∧ code = 1) := by
  unfold runEngine at hrun
  simp only [Bool.false_eq_true, if_false,
    testAllTools_wf_eq env h hne, Prod.mk.injEq] at hrun
  obtain ⟨hc, hrs, htr⟩ := hrun
  subst hrs
  subst htr
  refine ⟨?_, generateSummary_progress _, ?_, ?_⟩
  · rw [show loadingUpdate :: (loopTrace env.manifest.length 0 env.manifest
          ++ [generateSummary (allResults env)])
        = (loadingUpdate :: loopTrace env.manifest.length 0 env.manifest)
          ++ [generateSummary (allResults env)] from rfl,
      List.getLast?_concat]
  · intro h0
    refine ⟨generateSummary_of_no_fail _ h0, ?_⟩
    rw [← hc]
    simp [h0]
  · intro hnz
    refine ⟨generateSummary_of_fail _ hnz, ?_⟩
    rw [← hc]
    simp [hnz]

/-- C5 (witness): over `envTwo` both tools fail, so the last update is
`completed_with_errors` at progress 100 and the invocation returns 1. -/
theorem terminal_outcome_by_fail_count_witness :
    trTwo.getLast? = some (generateSummary resTwo)
    ∧ (generateSummary resTwo).progress = 100
    ∧ (resTwo.countP (fun r => decide (r.status = Status.fail)) = 0 →
        generateSummary resTwo =
          { status := "completed", progress := 100,
            message := "All "
              ++ toString (resTwo.countP (fun r => decide (r.status = Status.pass)))
              ++ " tests passed" }
        ∧ (1 : Nat) = 0)
    ∧ (resTwo.countP (fun r => decide (r.status = Status.fail)) ≠ 0 →
        generateSummary resTwo =
          { status := "completed_with_errors", progress := 100,
            message := toString (resTwo.countP (fun r => decide (r.status = Status.pass)))
              ++ " passed, "
              ++ toString (resTwo.countP (fun r => decide (r.status = Status.fail)))
              ++ " failed" }
        ∧ (1 : Nat) = 1) :=
  terminal_outcome_by_fail_count envTwo (by decide) (by decide) 1 resTwo trTwo rfl
